import Mathlib

/-!
# Devotionals API — verification of the devotional store (src/server.ts)

Shallow embedding of the devotional lifecycle of `src/server.ts`
(the first, authoritative variant of the file): the Express handlers

* `GET  /api/devotionals`      (lines 59–67)   — `listActive`
* `GET  /api/devotionals/:id`  (lines 70–90)   — `getById`
* `POST /api/devotionals`      (lines 93–115)  — `create`
* `PATCH  /api/devotionals/:id` (lines 145–194) — `updatePartial`
* `DELETE /api/devotionals/:id` (lines 197–222) — `softDelete`

The SQLite table `devotionals` is embedded as a list of rows plus the
AUTOINCREMENT counter.  `CURRENT_TIMESTAMP` is an explicit `now : Nat`
argument to each mutating handler.  JavaScript's `Number(id)` coercion
(whose `isNaN` test is the id validation at lines 75, 149 and 201) is
embedded as `jsNumber`, returning `none` for NaN.
-/

/-- A JavaScript number arising from a decimal literal, represented
exactly as `num / 10 ^ den10` (no rounding; the claims only compare
such numbers with small integer ids, where the rational value and the
IEEE double agree). -/
structure JsNum where
  num : Int
  den10 : Nat
deriving DecidableEq, Repr

/-- Value equality between a parsed number and an integer row id, as
SQLite's numeric comparison of the bound `:id` value with the INTEGER
`id` column decides it. -/
def JsNum.eqNat (a : JsNum) (n : Nat) : Bool :=
  a.num == (n : Int) * 10 ^ a.den10

def digitsToNat (acc : Nat) : List Char → Nat
  | [] => acc
  | c :: cs => digitsToNat (acc * 10 + (c.toNat - 48)) cs

def applyExp (m : JsNum) (neg : Bool) (e : Nat) : JsNum :=
  if neg then { m with den10 := m.den10 + e }
  else { m with num := m.num * 10 ^ e }

def parseExpDigits (m : JsNum) (neg : Bool) (ds : List Char) : Option JsNum :=
  if ds.isEmpty || !ds.all Char.isDigit then none
  else some (applyExp m neg (digitsToNat 0 ds))

def parseSignedExp (m : JsNum) : List Char → Option JsNum
  | '+' :: ds => parseExpDigits m false ds
  | '-' :: ds => parseExpDigits m true ds
  | ds => parseExpDigits m false ds

def parseExpTail (m : JsNum) : List Char → Option JsNum
  | [] => some m
  | 'e' :: rest => parseSignedExp m rest
  | 'E' :: rest => parseSignedExp m rest
  | _ => none

def parseUnsigned (cs : List Char) : Option JsNum :=
  let intPart := cs.takeWhile Char.isDigit
  let rest := cs.dropWhile Char.isDigit
  match rest with
  | '.' :: rest2 =>
      let fracPart := rest2.takeWhile Char.isDigit
      let rest3 := rest2.dropWhile Char.isDigit
      if intPart.isEmpty && fracPart.isEmpty then none
      else
        parseExpTail
          { num := (digitsToNat 0 intPart * 10 ^ fracPart.length
                     + digitsToNat 0 fracPart : Nat)
            den10 := fracPart.length }
          rest3
  | _ =>
      if intPart.isEmpty then none
      else parseExpTail { num := (digitsToNat 0 intPart : Nat), den10 := 0 } rest

def parseSigned : List Char → Option JsNum
  | '+' :: cs => parseUnsigned cs
  | '-' :: cs => (parseUnsigned cs).map (fun q => { q with num := -q.num })
  | cs => parseUnsigned cs

def isJsWhitespace (c : Char) : Bool :=
  c = ' ' || c = '\t' || c = '\n' || c = '\r'

/-- Embedding of JavaScript string-to-number coercion, decimal subset:
optional surrounding whitespace, empty string coerces to `0`, optional
sign, decimal digits with optional fraction and optional exponent.
`none` stands for NaN.  Hex/octal/binary literals and `"Infinity"` are
outside the modelled subset (no claim touches them); on every string
made of an optional sign and decimal digits/point/exponent this agrees
with ECMAScript `ToNumber`, and on non-empty such strings it also
agrees with SQLite's text-to-numeric affinity conversion used when the
raw `:id` string is bound against the INTEGER `id` column. -/
def jsNumber (s : String) : Option JsNum :=
  let cs := ((s.data.dropWhile isJsWhitespace).reverse.dropWhile isJsWhitespace).reverse
  if cs.isEmpty then some { num := 0, den10 := 0 } else parseSigned cs

/-- JavaScript truthiness of an optional JSON string field, as used by
`if (!verse || !content)` (line 98), `if (!verse && !content)`
(line 155) and the three-way branch at lines 162–174: an absent field
and the empty string are both falsy. -/
def truthy : Option String → Bool
  | none => false
  | some s => s ≠ ""

/-- One row of the `devotionals` table (schema at lines 29–38). -/
structure Devotional where
  id : Nat
  verse : String
  content : String
  created_at : Nat
  updated_at : Option Nat
  deleted_at : Option Nat
deriving DecidableEq, Repr

/-- The `devotionals` table: its rows in insertion (rowid) order plus
the AUTOINCREMENT counter.  AUTOINCREMENT starts at 1. -/
structure DB where
  rows : List Devotional
  nextId : Nat
deriving DecidableEq, Repr

def dbEmpty : DB := { rows := [], nextId := 1 }

/-- The row predicate `id = ? AND deleted_at IS NULL` shared by
`getById`, `updatePartial` and `softDelete`; the bound id value is the
numeric value of the `:id` path parameter. -/
def isTarget (q : JsNum) (d : Devotional) : Bool :=
  q.eqNat d.id && (d.deleted_at == none)

/-- HTTP responses produced by the devotional handlers. -/
inductive HResp where
  | ok (d : Devotional)
  | list (ds : List Devotional)
  | created (id : Nat) (verse content : String)
  | updated (verse content : Option String)
  | noContent
  | badRequest (msg : String)
  | notFound (msg : String)
  | serverError (msg : String)
deriving DecidableEq, Repr

def HResp.status : HResp → Nat
  | .ok _ => 200
  | .list _ => 200
  | .created _ _ _ => 201
  | .updated _ _ => 200
  | .noContent => 204
  | .badRequest _ => 400
  | .notFound _ => 404
  | .serverError _ => 500

/-- Active rows, in rowid order: `WHERE deleted_at IS NULL`. -/
def activeRows (db : DB) : List Devotional :=
  db.rows.filter (fun d => d.deleted_at == none)

/-- Descending `created_at` order used by `ORDER BY created_at DESC`. -/
def createdDesc (a b : Devotional) : Prop :=
  b.created_at ≤ a.created_at

instance : DecidableRel createdDesc :=
  fun a b => inferInstanceAs (Decidable (b.created_at ≤ a.created_at))

instance : IsTotal Devotional createdDesc :=
  ⟨fun a b => le_total b.created_at a.created_at⟩

instance : IsTrans Devotional createdDesc :=
  ⟨fun _ _ _ h1 h2 => le_trans h2 h1⟩

/-- `GET /api/devotionals` (lines 59–67), successful path:
`SELECT * FROM devotionals WHERE deleted_at IS NULL ORDER BY created_at DESC`. -/
def listActive (db : DB) : List Devotional :=
  (activeRows db).insertionSort createdDesc

/-- `GET /api/devotionals` handler including the catch branch
(line 65): a store failure is surfaced as 500. -/
def listDevotionals (db : DB) (storeFails : Bool) : HResp :=
  if storeFails then .serverError "Failed to retrieve devotionals."
  else .list (listActive db)

/-- `GET /api/devotionals/:id` (lines 70–90).  The id validation at
line 75 runs before any store access; a store failure afterwards lands
in the catch branch at line 88, which responds 404 (not 500). -/
def getById (db : DB) (idStr : String) (storeFails : Bool) : HResp :=
  match jsNumber idStr with
  | none => .badRequest "Invalid id provided. Id must be a number"
  | some q =>
    if storeFails then .notFound "Devotional Not Found"
    else
      match db.rows.find? (isTarget q) with
      | some d => .ok d
      | none => .notFound "Devotional not found or deleted."

/-- `POST /api/devotionals` (lines 93–115):
`INSERT INTO devotionals (verse, content) VALUES (?, ?)` after the
`!verse || !content` validation at line 98. -/
def create (db : DB) (verse content : Option String) (now : Nat) :
    DB × HResp :=
  if !truthy verse || !truthy content then
    (db, .badRequest "Both Verse and Content are required")
  else
    let d : Devotional :=
      { id := db.nextId, verse := verse.getD "", content := content.getD ""
        created_at := now, updated_at := none, deleted_at := none }
    ({ rows := db.rows ++ [d], nextId := db.nextId + 1 },
     .created db.nextId (verse.getD "") (content.getD ""))

/-- Effect of one matched `UPDATE` of the PATCH handler on a row, per
the three-way branch at lines 162–180: `!verse` → content-only
(line 163), `!content` → verse-only (line 169), else both (line 175,
whose `run(content, verse, id)` binds `content` to the first `?` of
`SET content = ?, verse = ?` and `verse` to the second). -/
def updateRow (verse content : Option String) (now : Nat)
    (d : Devotional) : Devotional :=
  if !truthy verse then
    { d with content := content.getD "", updated_at := some now }
  else if !truthy content then
    { d with verse := verse.getD "", updated_at := some now }
  else
    { d with content := content.getD "", verse := verse.getD ""
             updated_at := some now }

/-- Pointwise effect of the PATCH handler's conditional `UPDATE` on
the table: rows matched by `id = ? AND deleted_at IS NULL` are
rewritten by `updateRow`, all others kept. -/
def patchMark (q : JsNum) (verse content : Option String) (now : Nat)
    (d : Devotional) : Devotional :=
  if isTarget q d then updateRow verse content now d else d

/-- `PATCH /api/devotionals/:id` (lines 145–194): id validation
(line 149), `!verse && !content` validation (line 155), then one
conditional `UPDATE ... WHERE id = ? AND deleted_at IS NULL`; the
response echoes the supplied body fields (lines 183–186) when
`changes > 0`, else 404 (line 188). -/
def updatePartial (db : DB) (idStr : String) (verse content : Option String)
    (now : Nat) : DB × HResp :=
  match jsNumber idStr with
  | none => (db, .badRequest "Invalid id provided. Id must be a number")
  | some q =>
    if !truthy verse && !truthy content then
      (db, .badRequest "At least Verse or Content is required")
    else
      let changes := db.rows.countP (isTarget q)
      if changes > 0 then
        ({ db with rows := db.rows.map (patchMark q verse content now) },
         .updated verse content)
      else
        (db, .notFound "Devotional not found or could not be updated.")

/-- Pointwise effect of the DELETE handler's conditional `UPDATE`:
matched rows get `deleted_at` set, all other fields and rows kept. -/
def deleteMark (q : JsNum) (now : Nat) (d : Devotional) : Devotional :=
  if isTarget q d then { d with deleted_at := some now } else d

/-- `DELETE /api/devotionals/:id` (lines 197–222): id validation
(line 201), then
`UPDATE devotionals SET deleted_at = CURRENT_TIMESTAMP WHERE id = ? AND deleted_at IS NULL`;
204 with no payload when `changes > 0` (line 214), else 404 (line 216). -/
def softDelete (db : DB) (idStr : String) (now : Nat) : DB × HResp :=
  match jsNumber idStr with
  | none => (db, .badRequest "Invalid id provided. Id must be a number")
  | some q =>
    let changes := db.rows.countP (isTarget q)
    if changes > 0 then
      ({ db with rows := db.rows.map (deleteMark q now) }, .noContent)
    else
      (db, .notFound "Devotional not found or already deleted.")

/-- A devotional-store request, for reasoning about operation
sequences; the `Nat` alongside each op in a trace is the value of
`CURRENT_TIMESTAMP` during that request. -/
inductive Op where
  | opCreate (verse content : Option String)
  | opUpdate (idStr : String) (verse content : Option String)
  | opDelete (idStr : String)
deriving DecidableEq, Repr

def applyOp (db : DB) : Op → Nat → DB
  | .opCreate v c, now => (create db v c now).1
  | .opUpdate i v c, now => (updatePartial db i v c now).1
  | .opDelete i, now => (softDelete db i now).1

def applyOps (db : DB) : List (Op × Nat) → DB
  | [] => db
  | (op, t) :: rest => applyOps (applyOp db op t) rest

/-- A store holding one active devotional with id 1, used as concrete
input for witnesses. -/
def dbOne : DB :=
  { rows := [{ id := 1, verse := "John 3:16", content := "For God so loved"
               created_at := 1, updated_at := none, deleted_at := none }]
    nextId := 2 }

/-- The store after creating devotionals A, then B, then C (at strictly
increasing clock values 1, 2, 3). -/
def dbABC : DB :=
  (create (create (create dbEmpty (some "A") (some "a") 1).1
      (some "B") (some "b") 2).1 (some "C") (some "c") 3).1

def rowA : Devotional :=
  { id := 1, verse := "A", content := "a"
    created_at := 1, updated_at := none, deleted_at := none }

def rowB : Devotional :=
  { id := 2, verse := "B", content := "b"
    created_at := 2, updated_at := none, deleted_at := none }

def rowC : Devotional :=
  { id := 3, verse := "C", content := "c"
    created_at := 3, updated_at := none, deleted_at := none }

-- Sanity examples (concrete evaluation of the embedding).
/-! ## Helper lemmas -/

lemma isTarget_deleteMark (q : JsNum) (now : Nat) (d : Devotional) :
    isTarget q (deleteMark q now d) = false := by
  unfold deleteMark
  by_cases h : isTarget q d = true
  · rw [if_pos h]
    unfold isTarget
    simp
  · rw [if_neg h]
    exact eq_false_of_ne_true h

lemma countP_deleteMark (q : JsNum) (now : Nat) (l : List Devotional) :
    (l.map (deleteMark q now)).countP (isTarget q) = 0 := by
  rw [List.countP_eq_zero]
  intro a ha
  rcases List.mem_map.mp ha with ⟨d, _, rfl⟩
  simp [isTarget_deleteMark]

lemma find?_deleteMark (q : JsNum) (now : Nat) (l : List Devotional) :
    (l.map (deleteMark q now)).find? (isTarget q) = none := by
  rw [List.find?_eq_none]
  intro a ha
  rcases List.mem_map.mp ha with ⟨d, _, rfl⟩
  simp [isTarget_deleteMark]

lemma isTarget_of_deleted (q : JsNum) {d : Devotional}
    (hd : d.deleted_at ≠ none) : isTarget q d = false := by
  unfold isTarget
  have h2 : (d.deleted_at == none) = false := by
    cases h : d.deleted_at with
    | none => exact absurd h hd
    | some t => simp
  rw [h2, Bool.and_false]

lemma JsNum.eqNat_inj {q : JsNum} {m n : Nat}
    (hm : q.eqNat m = true) (hn : q.eqNat n = true) : m = n := by
  unfold JsNum.eqNat at hm hn
  rw [beq_iff_eq] at hm hn
  have h : (m : Int) * 10 ^ q.den10 = (n : Int) * 10 ^ q.den10 := by
    rw [← hm, ← hn]
  have h2 : (m : Int) = n :=
    mul_right_cancel₀ (pow_ne_zero _ (by norm_num)) h
  exact_mod_cast h2

/-- The post-state of `softDelete` is either the input store (invalid
id, or no matching active row) or the store with every matching active
row marked deleted. -/
lemma softDelete_state (db : DB) (idStr : String) (now : Nat) :
    (softDelete db idStr now).1 = db
    ∨ ∃ q, jsNumber idStr = some q
        ∧ (softDelete db idStr now).1
            = { db with rows := db.rows.map (deleteMark q now) } := by
  cases hq : jsNumber idStr with
  | none => left; simp [softDelete, hq]
  | some q =>
    simp only [softDelete, hq]
    by_cases h : 0 < db.rows.countP (isTarget q)
    · right; exact ⟨q, rfl, by rw [if_pos h]⟩
    · left; rw [if_neg h]

/-- The post-state of `updatePartial` is either the input store
(invalid id, no field supplied, or no matching active row) or the
store with every matching active row rewritten by `updateRow`;
in the latter case at least one of the fields was truthy. -/
lemma updatePartial_state (db : DB) (idStr : String)
    (v c : Option String) (now : Nat) :
    (updatePartial db idStr v c now).1 = db
    ∨ ∃ q, jsNumber idStr = some q
        ∧ (truthy v || truthy c) = true
        ∧ (updatePartial db idStr v c now).1
            = { db with rows := db.rows.map (patchMark q v c now) } := by
  cases hq : jsNumber idStr with
  | none => left; simp [updatePartial, hq]
  | some q =>
    simp only [updatePartial, hq]
    by_cases hb : (!truthy v && !truthy c) = true
    · left; rw [if_pos hb]
    · by_cases h : 0 < db.rows.countP (isTarget q)
      · right
        refine ⟨q, rfl, ?_, by rw [if_neg hb, if_pos h]⟩
        cases hv : truthy v <;> cases hc : truthy c <;> simp_all
      · left; rw [if_neg hb, if_neg h]

lemma deleteMark_frame (q : JsNum) (now : Nat) (d : Devotional) :
    (deleteMark q now d).updated_at = d.updated_at
    ∧ (deleteMark q now d).verse = d.verse
    ∧ (deleteMark q now d).content = d.content
    ∧ (deleteMark q now d).created_at = d.created_at
    ∧ (deleteMark q now d).id = d.id := by
  unfold deleteMark
  by_cases h : isTarget q d = true
  · rw [if_pos h]; exact ⟨rfl, rfl, rfl, rfl, rfl⟩
  · rw [if_neg h]; exact ⟨rfl, rfl, rfl, rfl, rfl⟩

lemma truthy_getD_ne {v : Option String} (hv : truthy v = true) :
    v.getD "" ≠ "" := by
  cases v with
  | none => simp [truthy] at hv
  | some s => simpa [truthy] using hv

/-- Field-level behaviour of one matched `UPDATE` of the PATCH
handler, across all three branches: a truthy field overwrites, a falsy
field is preserved, `updated_at` is refreshed, everything else kept. -/
lemma updateRow_fields (v c : Option String) (now : Nat) (d : Devotional)
    (hvc : (truthy v || truthy c) = true) :
    (updateRow v c now d).verse = (if truthy v then v.getD "" else d.verse)
    ∧ (updateRow v c now d).content
        = (if truthy c then c.getD "" else d.content)
    ∧ (updateRow v c now d).updated_at = some now
    ∧ (updateRow v c now d).id = d.id
    ∧ (updateRow v c now d).created_at = d.created_at
    ∧ (updateRow v c now d).deleted_at = d.deleted_at := by
  unfold updateRow
  cases hv : truthy v with
  | false =>
    have hc : truthy c = true := by simpa [hv] using hvc
    simp [hv, hc]
  | true =>
    cases hc : truthy c with
    | false => simp [hv, hc]
    | true => simp [hv, hc]

lemma updateRow_no_empty_overwrite (v c : Option String) (now : Nat)
    (d : Devotional) (hvc : (truthy v || truthy c) = true) :
    ((updateRow v c now d).verse = "" → d.verse = "")
    ∧ ((updateRow v c now d).content = "" → d.content = "") := by
  obtain ⟨h1, h2, -⟩ := updateRow_fields v c now d hvc
  constructor
  · intro h
    rw [h1] at h
    by_cases hv : truthy v = true
    · rw [if_pos hv] at h; exact absurd h (truthy_getD_ne hv)
    · rwa [if_neg hv] at h
  · intro h
    rw [h2] at h
    by_cases hc : truthy c = true
    · rw [if_pos hc] at h; exact absurd h (truthy_getD_ne hc)
    · rwa [if_neg hc] at h

lemma patchMark_no_empty_overwrite (q : JsNum) (v c : Option String)
    (now : Nat) (d : Devotional) (hvc : (truthy v || truthy c) = true) :
    ((patchMark q v c now d).verse = "" → d.verse = "")
    ∧ ((patchMark q v c now d).content = "" → d.content = "") := by
  unfold patchMark
  by_cases h : isTarget q d = true
  · rw [if_pos h]; exact updateRow_no_empty_overwrite v c now d hvc
  · rw [if_neg h]; exact ⟨fun h => h, fun h => h⟩

/-! ## Sanity checks of the embedding on concrete inputs -/

example : jsNumber "abc" = none := by decide
example : jsNumber "-1" = some { num := -1, den10 := 0 } := by decide
example : jsNumber "1.5" = some { num := 15, den10 := 1 } := by decide
example : jsNumber "12" = some { num := 12, den10 := 0 } := by decide
example : jsNumber "" = some { num := 0, den10 := 0 } := by decide
example : jsNumber " 7 " = some { num := 7, den10 := 0 } := by decide
example : jsNumber "2e3" = some { num := 2000, den10 := 0 } := by decide
example : jsNumber "2.5e1" = some { num := 250, den10 := 1 } := by decide
example : JsNum.eqNat { num := 250, den10 := 1 } 25 = true := by decide
example : JsNum.eqNat { num := 15, den10 := 1 } 1 = false := by decide

/-! ## Claim theorems -/

/-- C2 counterexample: the id parameter `"-1"` is not a syntactically
valid non-negative integer, yet `getById`, `updatePartial` and
`softDelete` all report it as NotFound (404), not as a
ValidationError (400): `isNaN(Number("-1"))` is false, so the id
passes the only validation the handlers perform. -/
theorem malformedId_counterexample :
    (getById dbEmpty "-1" false).status = 404
    ∧ ¬ (getById dbEmpty "-1" false).status = 400
    ∧ (updatePartial dbEmpty "-1" (some "x") none 0).2.status = 404
    ∧ (softDelete dbEmpty "-1" 0).2.status = 404 := by decide

/-- C2 (amended): exactly the id strings on which `Number(id)` is NaN
(e.g. `"abc"`) are rejected: for those, `getById`, `updatePartial` and
`softDelete` return a 400 ValidationError, never NotFound, and leave
the store untouched.  Numeric but non-integral or negative ids such as
`"-1"` or `"1.5"` pass this validation and are instead reported as 404
when no row matches. -/
theorem nanId_validation (db : DB) (idStr : String) (storeFails : Bool)
    (v c : Option String) (now : Nat)
    (h : jsNumber idStr = none) :
    getById db idStr storeFails
      = HResp.badRequest "Invalid id provided. Id must be a number"
    ∧ (getById db idStr storeFails).status = 400
    ∧ updatePartial db idStr v c now
      = (db, HResp.badRequest "Invalid id provided. Id must be a number")
    ∧ (updatePartial db idStr v c now).2.status = 400
    ∧ softDelete db idStr now
      = (db, HResp.badRequest "Invalid id provided. Id must be a number")
    ∧ (softDelete db idStr now).2.status = 400 := by
  refine ⟨?_, ?_, ?_, ?_, ?_, ?_⟩ <;>
    simp [getById, updatePartial, softDelete, h, HResp.status]

theorem nanId_validation_witness :
    (getById dbEmpty "abc" false).status = 400
    ∧ (updatePartial dbEmpty "abc" (some "v") (some "c") 0).2.status = 400
    ∧ (softDelete dbEmpty "abc" 0).2.status = 400 :=
  ⟨(nanId_validation dbEmpty "abc" false (some "v") (some "c") 0 (by decide)).2.1,
   (nanId_validation dbEmpty "abc" false (some "v") (some "c") 0 (by decide)).2.2.2.1,
   (nanId_validation dbEmpty "abc" false (some "v") (some "c") 0 (by decide)).2.2.2.2.2⟩

/-- C3: when the store statement of `GET /api/devotionals/:id` throws,
the catch branch at line 88 of `src/server.ts` responds 404, not the
500 the specification requires for a `StoreError`.  This theorem
evaluates the embedded handler on the failing path: for every
well-formed id, a store failure is surfaced as
`404 "Devotional Not Found"` and never as 500. -/
theorem getById_storeFailure (db : DB) (idStr : String) (q : JsNum)
    (hq : jsNumber idStr = some q) :
    getById db idStr true = HResp.notFound "Devotional Not Found"
    ∧ (getById db idStr true).status = 404
    ∧ ¬ (getById db idStr true).status = 500 := by
  refine ⟨?_, ?_, ?_⟩ <;> simp [getById, hq, HResp.status]

theorem getById_storeFailure_witness :
    getById dbEmpty "1" true = HResp.notFound "Devotional Not Found" :=
  (getById_storeFailure dbEmpty "1" { num := 1, den10 := 0 } (by decide)).1

/-- C5: on a store holding exactly one active row with the requested
id, the first `softDelete` succeeds with 204 and no payload, and a
second `softDelete` of the same id returns 404; moreover any store
with no matching active row (id never assigned, or already deleted)
gets the same 404, so NotFound covers both cases. -/
theorem softDelete_twice (db : DB) (idStr : String) (q : JsNum)
    (now1 now2 : Nat)
    (hq : jsNumber idStr = some q)
    (hone : db.rows.countP (isTarget q) = 1) :
    (softDelete db idStr now1).2 = HResp.noContent
    ∧ (softDelete db idStr now1).2.status = 204
    ∧ (softDelete (softDelete db idStr now1).1 idStr now2).2
        = HResp.notFound "Devotional not found or already deleted."
    ∧ (softDelete (softDelete db idStr now1).1 idStr now2).2.status = 404
    ∧ (∀ db2 : DB, db2.rows.countP (isTarget q) = 0 →
        (softDelete db2 idStr now2).2
          = HResp.notFound "Devotional not found or already deleted.") := by
  refine ⟨?_, ?_, ?_, ?_, ?_⟩
  · simp only [softDelete, hq, hone]
    rfl
  · simp only [softDelete, hq, hone]
    rfl
  · simp [softDelete, hq, hone, isTarget_deleteMark]
  · simp [softDelete, hq, hone, isTarget_deleteMark, HResp.status]
  · intro db2 h2
    simp only [softDelete, hq, h2]
    rfl

theorem softDelete_twice_witness :
    (softDelete dbOne "1" 2).2 = HResp.noContent
    ∧ (softDelete (softDelete dbOne "1" 2).1 "1" 3).2.status = 404 :=
  ⟨(softDelete_twice dbOne "1" { num := 1, den10 := 0 } 2 3
      (by decide) (by decide)).1,
   (softDelete_twice dbOne "1" { num := 1, den10 := 0 } 2 3
      (by decide) (by decide)).2.2.2.1⟩

/-- C1: once `softDelete(id)` has succeeded, the record is logically
absent for every subsequent operation: `getById` on the same id
returns 404, `listActive` contains no record with that id, and a
well-formed `updatePartial` of that id returns 404 and leaves the
store unchanged. -/
theorem softDelete_visibility (db : DB) (idStr : String) (q : JsNum)
    (now t : Nat) (v c : Option String)
    (hq : jsNumber idStr = some q)
    (hsucc : (softDelete db idStr now).2 = HResp.noContent)
    (hvc : (truthy v || truthy c) = true) :
    (getById (softDelete db idStr now).1 idStr false).status = 404
    ∧ (∀ d ∈ listActive (softDelete db idStr now).1, q.eqNat d.id = false)
    ∧ (updatePartial (softDelete db idStr now).1 idStr v c t).2.status = 404
    ∧ (updatePartial (softDelete db idStr now).1 idStr v c t).1
        = (softDelete db idStr now).1 := by
  have hpos : 0 < db.rows.countP (isTarget q) := by
    by_contra hn
    rw [Nat.not_lt, Nat.le_zero] at hn
    simp [softDelete, hq, hn] at hsucc
  have hdb : (softDelete db idStr now).1
      = { db with rows := db.rows.map (deleteMark q now) } := by
    simp only [softDelete, hq]
    rw [if_pos hpos]
  have hvc' : (!truthy v && !truthy c) = false := by
    cases hv : truthy v <;> cases hc : truthy c <;> simp_all
  refine ⟨?_, ?_, ?_, ?_⟩
  · rw [hdb]
    have hfind : db.rows.find? (isTarget q ∘ deleteMark q now) = none := by
      rw [List.find?_eq_none]
      intro a _
      simp [Function.comp, isTarget_deleteMark]
    simp [getById, hq, hfind, HResp.status]
  · intro d hd
    rw [hdb] at hd
    rw [listActive, List.mem_insertionSort, activeRows, List.mem_filter] at hd
    obtain ⟨hdrows, hdact⟩ := hd
    rcases List.mem_map.mp hdrows with ⟨d0, _, rfl⟩
    have hfalse := isTarget_deleteMark q now d0
    rw [isTarget] at hfalse
    simpa [hdact] using hfalse
  · rw [hdb]
    simp [updatePartial, hq, hvc', isTarget_deleteMark, HResp.status]
  · rw [hdb]
    simp [updatePartial, hq, hvc', isTarget_deleteMark]

theorem softDelete_visibility_witness :
    (getById (softDelete dbOne "1" 2).1 "1" false).status = 404
    ∧ (updatePartial (softDelete dbOne "1" 2).1 "1" (some "x") none 3).2.status
        = 404 :=
  ⟨(softDelete_visibility dbOne "1" { num := 1, den10 := 0 } 2 3
      (some "x") none (by decide) (by decide) (by decide)).1,
   (softDelete_visibility dbOne "1" { num := 1, den10 := 0 } 2 3
      (some "x") none (by decide) (by decide) (by decide)).2.2.1⟩

/-- C4: on a matching active record, `updatePartial` maps every
matched row through `updateRow`, whose observable effect — uniformly
across the three branches (verse-only, content-only, both) — is:
a supplied (truthy) field overwrites the stored value, a field not
supplied is left unchanged, `updated_at` is freshly set to the current
time, and id/created_at/deleted_at are untouched; non-matching rows
are unchanged, and the response echoes the supplied fields. -/
theorem updatePartial_branches (db : DB) (idStr : String) (q : JsNum)
    (v c : Option String) (now : Nat)
    (hq : jsNumber idStr = some q)
    (hvc : (truthy v || truthy c) = true)
    (hpos : 0 < db.rows.countP (isTarget q)) :
    (updatePartial db idStr v c now).2 = HResp.updated v c
    ∧ (updatePartial db idStr v c now).1.rows
        = db.rows.map (patchMark q v c now)
    ∧ (∀ d, isTarget q d = true →
        (patchMark q v c now d).verse
            = (if truthy v then v.getD "" else d.verse)
        ∧ (patchMark q v c now d).content
            = (if truthy c then c.getD "" else d.content)
        ∧ (patchMark q v c now d).updated_at = some now
        ∧ (patchMark q v c now d).id = d.id
        ∧ (patchMark q v c now d).created_at = d.created_at
        ∧ (patchMark q v c now d).deleted_at = d.deleted_at)
    ∧ (∀ d, isTarget q d = false → patchMark q v c now d = d) := by
  have hvc' : ¬((!truthy v && !truthy c) = true) := by
    cases hv : truthy v <;> cases hc : truthy c <;> simp_all
  have key : updatePartial db idStr v c now
      = ({ db with rows := db.rows.map (patchMark q v c now) },
         HResp.updated v c) := by
    simp only [updatePartial, hq]
    rw [if_neg hvc', if_pos hpos]
  refine ⟨by rw [key], by rw [key], ?_, ?_⟩
  · intro d hd
    unfold patchMark
    rw [if_pos hd]
    exact updateRow_fields v c now d hvc
  · intro d hd
    unfold patchMark
    rw [if_neg (by simp [hd])]

theorem updatePartial_branches_witness :
    (updatePartial dbOne "1" none (some "C2") 5).2
        = HResp.updated none (some "C2")
    ∧ (updatePartial dbOne "1" none (some "C2") 5).1.rows
        = dbOne.rows.map (patchMark { num := 1, den10 := 0 } none (some "C2") 5) :=
  ⟨(updatePartial_branches dbOne "1" { num := 1, den10 := 0 } none (some "C2") 5
      (by decide) (by decide) (by decide)).1,
   (updatePartial_branches dbOne "1" { num := 1, den10 := 0 } none (some "C2") 5
      (by decide) (by decide) (by decide)).2.1⟩

/-- C6: `listActive` returns exactly the records whose `deleted_at` is
absent, ordered by `created_at` descending; in particular after
inserting A, then B, then C, it returns C, B, A. -/
theorem listActive_spec (db : DB) (d : Devotional) :
    (d ∈ listActive db ↔ d ∈ db.rows ∧ d.deleted_at = none)
    ∧ List.Sorted createdDesc (listActive db)
    ∧ listActive dbABC = [rowC, rowB, rowA] := by
  refine ⟨?_, ?_, ?_⟩
  · rw [listActive, List.mem_insertionSort, activeRows, List.mem_filter]
    simp
  · exact List.sorted_insertionSort createdDesc (activeRows db)
  · decide

/-- C7: `create` with a missing/empty verse or content returns a 400
ValidationError and inserts nothing; with both non-empty it returns
201 carrying the assigned id, and any id string denoting that id is
immediately fetchable via `getById`, yielding the new record, active
and visible. -/
theorem create_validation_roundtrip (db : DB) (v c : Option String)
    (now : Nat)
    (hfresh : ∀ d ∈ db.rows, d.id < db.nextId) :
    ((truthy v = false ∨ truthy c = false) →
        create db v c now
          = (db, HResp.badRequest "Both Verse and Content are required"))
    ∧ (truthy v = true → truthy c = true →
        (create db v c now).2
            = HResp.created db.nextId (v.getD "") (c.getD "")
        ∧ (create db v c now).2.status = 201
        ∧ (∀ idStr q, jsNumber idStr = some q → q.eqNat db.nextId = true →
            getById (create db v c now).1 idStr false
              = HResp.ok { id := db.nextId, verse := v.getD ""
                           content := c.getD "", created_at := now
                           updated_at := none, deleted_at := none })) := by
  constructor
  · intro h
    unfold create
    rw [if_pos (by rcases h with h | h <;> simp [h])]
  · intro hv hc
    have hkey : create db v c now
        = ({ rows := db.rows
              ++ [{ id := db.nextId, verse := v.getD "", content := c.getD ""
                    created_at := now, updated_at := none, deleted_at := none }]
             nextId := db.nextId + 1 },
           HResp.created db.nextId (v.getD "") (c.getD "")) := by
      unfold create
      rw [if_neg (by simp [hv, hc])]
    refine ⟨by rw [hkey], by rw [hkey]; rfl, ?_⟩
    intro idStr q hq hqid
    have hnone : db.rows.find? (isTarget q) = none := by
      rw [List.find?_eq_none]
      intro a ha hcontra
      rw [isTarget, Bool.and_eq_true] at hcontra
      have : a.id = db.nextId := JsNum.eqNat_inj hcontra.1 hqid
      exact absurd (this ▸ hfresh a ha) (lt_irrefl _)
    rw [hkey]
    simp only [getById, hq]
    rw [if_neg (by simp)]
    rw [List.find?_append, hnone, Option.none_or]
    simp [List.find?, isTarget, hqid]

theorem create_validation_roundtrip_witness :
    create dbEmpty (some "") (some "x") 1
        = (dbEmpty, HResp.badRequest "Both Verse and Content are required")
    ∧ (create dbEmpty (some "John 3:16") (some "For God so loved") 1).2
        = HResp.created 1 "John 3:16" "For God so loved"
    ∧ getById (create dbEmpty (some "John 3:16") (some "For God so loved") 1).1
        "1" false
        = HResp.ok { id := 1, verse := "John 3:16"
                     content := "For God so loved", created_at := 1
                     updated_at := none, deleted_at := none } :=
  ⟨(create_validation_roundtrip dbEmpty (some "") (some "x") 1
      (by decide)).1 (Or.inl (by decide)),
   ((create_validation_roundtrip dbEmpty (some "John 3:16")
      (some "For God so loved") 1 (by decide)).2 (by decide) (by decide)).1,
   ((create_validation_roundtrip dbEmpty (some "John 3:16")
      (some "For God so loved") 1 (by decide)).2 (by decide) (by decide)).2.2
     "1" { num := 1, den10 := 0 } (by decide) (by decide)⟩

/-- One devotional-store request never touches a row whose
`deleted_at` is already set: the row at the same position is unchanged
whole. -/
lemma applyOp_preserves_deleted (db : DB) (op : Op) (τ : Nat) (i : Nat)
    (d : Devotional) (hd : db.rows[i]? = some d)
    (hdel : d.deleted_at ≠ none) :
    (applyOp db op τ).rows[i]? = some d := by
  have hmap : ∀ f : Devotional → Devotional, f d = d →
      (db.rows.map f)[i]? = some d := by
    intro f hf
    rw [List.getElem?_map, hd]
    simp [hf]
  cases op with
  | opCreate v c =>
    simp only [applyOp]
    unfold create
    by_cases hval : (!truthy v || !truthy c) = true
    · rw [if_pos hval]
      exact hd
    · rw [if_neg hval]
      obtain ⟨hi, -⟩ := List.getElem?_eq_some_iff.mp hd
      rw [List.getElem?_append_left hi]
      exact hd
  | opUpdate s v c =>
    rcases updatePartial_state db s v c τ with h | ⟨q, -, -, h⟩
    · simp only [applyOp]
      rw [h]
      exact hd
    · simp only [applyOp]
      rw [h]
      refine hmap _ ?_
      unfold patchMark
      rw [if_neg (by simp [isTarget_of_deleted q hdel])]
  | opDelete s =>
    rcases softDelete_state db s τ with h | ⟨q, -, h⟩
    · simp only [applyOp]
      rw [h]
      exact hd
    · simp only [applyOp]
      rw [h]
      refine hmap _ ?_
      unfold deleteMark
      rw [if_neg (by simp [isTarget_of_deleted q hdel])]

/-- C8: `deleted_at` is terminal.  Once a row has `deleted_at` set, no
sequence of create/updatePartial/softDelete requests ever clears or
changes it — the whole row is left exactly as it is, because every
mutating statement is conditioned on `deleted_at IS NULL`. -/
theorem deletedAt_terminal (db : DB) (ops : List (Op × Nat)) (i : Nat)
    (d : Devotional) (t : Nat)
    (hd : db.rows[i]? = some d)
    (hdel : d.deleted_at = some t) :
    (applyOps db ops).rows[i]? = some d := by
  induction ops generalizing db with
  | nil => exact hd
  | cons p rest ih =>
    obtain ⟨op, τ⟩ := p
    exact ih (applyOp db op τ)
      (applyOp_preserves_deleted db op τ i d hd (by rw [hdel]; simp))

theorem deletedAt_terminal_witness :
    (applyOps (softDelete dbOne "1" 2).1
        [(Op.opUpdate "1" (some "V") none, 3), (Op.opDelete "1", 4),
         (Op.opCreate (some "A") (some "a"), 5)]).rows[0]?
      = some { id := 1, verse := "John 3:16", content := "For God so loved"
               created_at := 1, updated_at := none, deleted_at := some 2 } :=
  deletedAt_terminal (softDelete dbOne "1" 2).1
    [(Op.opUpdate "1" (some "V") none, 3), (Op.opDelete "1", 4),
     (Op.opCreate (some "A") (some "a"), 5)]
    0
    { id := 1, verse := "John 3:16", content := "For God so loved"
      created_at := 1, updated_at := none, deleted_at := some 2 }
    2 (by decide) (by decide)

/-- C9: `updated_at` is only ever touched by `updatePartial`: a
successful `create` appends a row whose `updated_at` is absent (and a
failed one changes nothing), and `softDelete` preserves `updated_at` —
and every other field except `deleted_at` — of every row. -/
theorem updatedAt_frame (db : DB) (v c : Option String) (idStr : String)
    (now : Nat) :
    (truthy v = true → truthy c = true →
      (create db v c now).1.rows
        = db.rows ++ [{ id := db.nextId, verse := v.getD ""
                        content := c.getD "", created_at := now
                        updated_at := none, deleted_at := none }])
    ∧ ((truthy v = false ∨ truthy c = false) → (create db v c now).1 = db)
    ∧ (softDelete db idStr now).1.rows.length = db.rows.length
    ∧ (∀ i : Nat, ∀ d0 : Devotional, db.rows[i]? = some d0 →
        ∃ d1, (softDelete db idStr now).1.rows[i]? = some d1
          ∧ d1.updated_at = d0.updated_at
          ∧ d1.verse = d0.verse
          ∧ d1.content = d0.content
          ∧ d1.created_at = d0.created_at
          ∧ d1.id = d0.id) := by
  refine ⟨?_, ?_, ?_, ?_⟩
  · intro hv hc
    unfold create
    rw [if_neg (by simp [hv, hc])]
  · intro h
    unfold create
    rw [if_pos (by rcases h with h | h <;> simp [h])]
  · rcases softDelete_state db idStr now with h | ⟨q, -, h⟩
    · rw [h]
    · rw [h]
      exact List.length_map _ _
  · intro i d0 hd0
    rcases softDelete_state db idStr now with h | ⟨q, -, h⟩
    · exact ⟨d0, by rw [h]; exact hd0, rfl, rfl, rfl, rfl, rfl⟩
    · refine ⟨deleteMark q now d0, ?_, ?_⟩
      · rw [h]
        simp only [DB.rows]
        rw [List.getElem?_map, hd0]
        rfl
      · obtain ⟨h1, h2, h3, h4, h5⟩ := deleteMark_frame q now d0
        exact ⟨h1, h2, h3, h4, h5⟩

theorem updatedAt_frame_witness :
    (create dbEmpty (some "A") (some "a") 1).1.rows
      = dbEmpty.rows
          ++ [{ id := 1, verse := "A", content := "a", created_at := 1
                updated_at := none, deleted_at := none }] :=
  (updatedAt_frame dbEmpty (some "A") (some "a") "1" 1).1
    (by decide) (by decide)

/-- C10: in `updatePartial` an empty-string field is treated as not
supplied (JavaScript truthiness): with verse `""` and non-empty
content the content-only branch runs, replacing `content` and leaving
`verse` unchanged on every matching active row, while verse `""` with
content absent fails the `!verse && !content` validation with a 400;
consequently no stored verse/content is ever overwritten with `""`. -/
theorem emptyString_not_supplied (db : DB) (idStr : String) (q : JsNum)
    (s : String) (now : Nat)
    (hq : jsNumber idStr = some q)
    (hs : s ≠ "")
    (hpos : 0 < db.rows.countP (isTarget q)) :
    (updatePartial db idStr (some "") (some s) now).2
        = HResp.updated (some "") (some s)
    ∧ (updatePartial db idStr (some "") (some s) now).2.status = 200
    ∧ (updatePartial db idStr (some "") (some s) now).1.rows
        = db.rows.map (patchMark q (some "") (some s) now)
    ∧ (∀ d, isTarget q d = true →
        patchMark q (some "") (some s) now d
          = { d with content := s, updated_at := some now })
    ∧ updatePartial db idStr (some "") none now
        = (db, HResp.badRequest "At least Verse or Content is required")
    ∧ (∀ v c : Option String, ∀ i : Nat, ∀ d0 d1 : Devotional,
        db.rows[i]? = some d0 →
        (updatePartial db idStr v c now).1.rows[i]? = some d1 →
        (d1.verse = "" → d0.verse = "")
        ∧ (d1.content = "" → d0.content = "")) := by
  have hts : truthy (some s) = true := by simpa [truthy] using hs
  have key : updatePartial db idStr (some "") (some s) now
      = ({ db with
            rows := db.rows.map (patchMark q (some "") (some s) now) },
         HResp.updated (some "") (some s)) := by
    simp only [updatePartial, hq]
    rw [if_neg (by simp [truthy, hts, hs]), if_pos hpos]
  refine ⟨by rw [key], by rw [key]; rfl, by rw [key], ?_, ?_, ?_⟩
  · intro d hd
    unfold patchMark
    rw [if_pos hd]
    unfold updateRow
    rw [if_pos (by decide)]
    rfl
  · simp only [updatePartial, hq]
    rw [if_pos (by decide)]
  · intro v' c' i d0 d1 hd0 hd1
    rcases updatePartial_state db idStr v' c' now with h | ⟨q', -, hvc', h⟩
    · rw [h, hd0] at hd1
      obtain rfl : d0 = d1 := by injection hd1
      exact ⟨fun h2 => h2, fun h2 => h2⟩
    · rw [h] at hd1
      simp only [DB.rows] at hd1
      rw [List.getElem?_map, hd0] at hd1
      obtain rfl : patchMark q' v' c' now d0 = d1 := by injection hd1
      exact patchMark_no_empty_overwrite q' v' c' now d0 hvc'

theorem emptyString_not_supplied_witness :
    (updatePartial dbOne "1" (some "") (some "C2") 5).2
        = HResp.updated (some "") (some "C2")
    ∧ updatePartial dbOne "1" (some "") none 5
        = (dbOne, HResp.badRequest "At least Verse or Content is required") :=
  ⟨(emptyString_not_supplied dbOne "1" { num := 1, den10 := 0 } "C2" 5
      (by decide) (by decide) (by decide)).1,
   (emptyString_not_supplied dbOne "1" { num := 1, den10 := 0 } "C2" 5
      (by decide) (by decide) (by decide)).2.2.2.2.1⟩
